/-
  Verification development for the Toss'em Hold'em CFR trainer core.

  Shallow embedding of:
  - the 5-card hand evaluator (hand_eval.cpp / hand_eval.h),
  - the game state machine (game_state.cpp / game_state.h),
  - the information-set abstraction (abstraction.cpp / abstraction.h).

  Modelling conventions:
  - C++ `int` chip quantities are embedded as `Int` (all reachable values are
    far below 2^31, so overflow never occurs and plain `Int` is faithful).
  - C++ `double` payoffs are embedded as `Rat`; the only payoff values the
    code produces are integers and integer halves, which IEEE-754 float64
    represents exactly, so rational arithmetic is exact for them.
  - `static_cast<int>(pot * 0.55)` truncates the double product toward zero.
    For every pot value 0 ≤ pot ≤ 2·STARTING_STACK = 800 the double product
    `pot * (double)0.55` truncates to exactly ⌊11·pot/20⌋: the double nearest
    0.55 is 2476979795053773/2^52 (slightly above 11/20), the relative error
    of the rounded product is below 2^-52, and whenever 11·pot/20 is an
    integer the product rounds either to that integer or to the next double
    up, both of which truncate to the integer.  We therefore embed the cast
    as `Int.tdiv (11 * pot) 20` (T-division, i.e. truncation toward zero).
  - The C++ board array of 6 cells plus `board_size` is embedded as the list
    of its first `board_size` cells: every write the code performs is an
    append at index `board_size`, and `undo_action` restores `board_size`
    only, so list append / list truncation models it exactly.
  - The per-player 3-cell hand arrays are embedded cell-for-cell (`Hand3`)
    together with the separate `hand_sizes` field, because `apply_discard`
    overwrites a cell in place and `undo_action` restores only the size.
  - `history` and `street_history` are embedded as lists with `push_back`
    as append-at-end and `resize` as prefix truncation.
-/
import Mathlib

namespace tossem

/- ===== Constants (abstraction.h, game_state.h) ===== -/

def STARTING_STACK : Int := 400
def SMALL_BLIND : Int := 1
def BIG_BLIND : Int := 2

def FOLD : Nat := 0
def CHECK_CALL : Nat := 1
def RAISE_SMALL : Nat := 2
def RAISE_LARGE : Nat := 3
def NUM_ACTIONS : Nat := 4

/-- Street constants as defined in abstraction.h (the compact 6-value form;
these are the constants game_state.cpp actually compiles against). -/
def STREET_PREFLOP : Nat := 0
def STREET_FLOP : Nat := 1
def STREET_BB_DISCARD : Nat := 2
def STREET_SB_DISCARD : Nat := 3
def STREET_TURN : Nat := 4
def STREET_RIVER : Nat := 5

def DISCARD0 : Nat := 4
def DISCARD1 : Nat := 5
def DISCARD2 : Nat := 6
def NUM_DISTINCT_ACTIONS : Nat := 7

/-- Card helpers: card = rank*4 + suit, rank 0..12, suit 0..3. -/
def rank (c : Nat) : Nat := c / 4

def suit (c : Nat) : Nat := c % 4

end tossem

namespace eval

/-- HandValue from hand_eval.h: type 0..8, five kickers.
Kickers are `Int` because eval_five initializes the two-pair kicker to -1. -/
structure HandValue where
  type : Nat
  kickers : List Int
deriving DecidableEq, Repr

/-- Sort a list of naturals in descending order
(std::sort with std::greater). -/
def sortDesc (l : List Nat) : List Nat :=
  List.insertionSort (fun a b => a ≥ b) l

/-- Adjacent deduplication of a sorted list: builds the `uniq` vector of
eval_five (push r when the back differs). -/
def dedupAdj : List Nat → List Nat
  | [] => []
  | [a] => [a]
  | a :: b :: t => if a = b then dedupAdj (b :: t) else a :: dedupAdj (b :: t)

/-- The group comparator of eval_five: count descending, then rank
descending.  All group ranks are distinct, so comparing the key
count*13 + rank is equivalent to the C++ comparator. -/
def groupKeyGE (a b : Nat × Nat) : Prop :=
  a.1 * 13 + a.2 ≥ b.1 * 13 + b.2

instance : DecidableRel groupKeyGE := fun a b => by
  unfold groupKeyGE
  infer_instance

/-- The (count, rank) groups of a 5-card rank multiset, sorted by
(count desc, rank desc) exactly as eval_five builds them. -/
def groupsOf (ranks : List Nat) : List (Nat × Nat) :=
  List.insertionSort groupKeyGE
    (((List.range 13).reverse).filterMap
      (fun r => if ranks.count r > 0 then some (ranks.count r, r) else none))

/-- eval_five from hand_eval.cpp: evaluate exactly five cards. -/
def eval_five (cards : List Nat) : HandValue :=
  let ranks := sortDesc (cards.map tossem.rank)
  let suits := cards.map tossem.suit
  let is_flush := suits.all (fun s => s == suits.headD 0)
  let groups := groupsOf ranks
  let uniq := dedupAdj ranks
  let is_straight :=
    uniq.length = 5 ∧
      (uniq.getD 0 0 - uniq.getD 4 0 = 4 ∨
        (uniq.getD 0 0 = 12 ∧ uniq.getD 1 0 = 3 ∧ uniq.getD 2 0 = 2 ∧
          uniq.getD 3 0 = 1 ∧ uniq.getD 4 0 = 0))
  let straight_high : Int :=
    if uniq.getD 0 0 = 12 ∧ uniq.getD 1 0 = 3 then 3 else (uniq.getD 0 0 : Int)
  let g0 := groups.headD (0, 0)
  let g1 := groups.getD 1 (0, 0)
  if is_straight ∧ is_flush then
    ⟨8, [straight_high, 0, 0, 0, 0]⟩
  else if g0.1 = 4 then
    ⟨7, [(g0.2 : Int), (g1.2 : Int), 0, 0, 0]⟩
  else if g0.1 = 3 ∧ 1 < groups.length ∧ g1.1 = 2 then
    ⟨6, [(g0.2 : Int), (g1.2 : Int), 0, 0, 0]⟩
  else if is_flush then
    ⟨5, [(ranks.getD 0 0 : Int), (ranks.getD 1 0 : Int), (ranks.getD 2 0 : Int),
         (ranks.getD 3 0 : Int), (ranks.getD 4 0 : Int)]⟩
  else if is_straight then
    ⟨4, [straight_high, 0, 0, 0, 0]⟩
  else if g0.1 = 3 then
    let singles := sortDesc ((groups.filter (fun g => g.1 == 1)).map (fun g => g.2))
    ⟨3, [(g0.2 : Int), (singles.getD 0 0 : Int), (singles.getD 1 0 : Int), 0, 0]⟩
  else if g0.1 = 2 ∧ 1 < groups.length ∧ g1.1 = 2 then
    let kick : Int :=
      match groups.find? (fun g => g.1 == 1) with
      | some g => (g.2 : Int)
      | none => -1
    ⟨2, [(max g0.2 g1.2 : Int), (min g0.2 g1.2 : Int), kick, 0, 0]⟩
  else if g0.1 = 2 then
    let singles := sortDesc ((groups.filter (fun g => g.1 == 1)).map (fun g => g.2))
    ⟨1, [(g0.2 : Int), (singles.getD 0 0 : Int), (singles.getD 1 0 : Int),
         (singles.getD 2 0 : Int), 0]⟩
  else
    ⟨0, [(ranks.getD 0 0 : Int), (ranks.getD 1 0 : Int), (ranks.getD 2 0 : Int),
         (ranks.getD 3 0 : Int), (ranks.getD 4 0 : Int)]⟩

/-- Lexicographic strict comparison on kicker lists
(the loop body of HandValue::operator>). -/
def kickersGT : List Int → List Int → Bool
  | a :: as, b :: bs => if a ≠ b then decide (a > b) else kickersGT as bs
  | _, _ => false

/-- HandValue::operator> from hand_eval.h. -/
def hvGT (a b : HandValue) : Bool :=
  if a.type ≠ b.type then decide (a.type > b.type) else kickersGT a.kickers b.kickers

/-- The C(n,5) index combinations a<b<c<d<e in the lexicographic order of the
five nested loops of evaluate_best, mapped to the chosen cards. -/
def combos5 (cs : List Nat) : List (List Nat) :=
  let n := cs.length
  (List.range n).flatMap (fun a =>
    (List.range n).flatMap (fun b =>
      (List.range n).flatMap (fun c =>
        (List.range n).flatMap (fun d =>
          (List.range n).filterMap (fun e =>
            if a < b ∧ b < c ∧ c < d ∧ d < e then
              some [cs.getD a 0, cs.getD b 0, cs.getD c 0, cs.getD d 0, cs.getD e 0]
            else none)))))

/-- evaluate_best from hand_eval.cpp.  The C++ code starts from a sentinel
type -1 and keeps the first strictly greater value, which is the same as
folding max-keep-first over the combinations starting from the first one. -/
def evaluate_best (cards : List Nat) : HandValue :=
  if cards.length < 5 then
    let rs := sortDesc (cards.map tossem.rank)
    ⟨0, [(rs.getD 0 0 : Int), (rs.getD 1 0 : Int), (rs.getD 2 0 : Int),
         (rs.getD 3 0 : Int), (rs.getD 4 0 : Int)]⟩
  else
    match (combos5 cards).map eval_five with
    | [] => ⟨0, [0, 0, 0, 0, 0]⟩
    | h :: t => t.foldl (fun best hv => if hvGT hv best then hv else best) h

/-- The kicker comparison loop of eval::compare. -/
def compareKickers : List Int → List Int → Int
  | a :: as, b :: bs =>
      if a ≠ b then (if a > b then 1 else -1) else compareKickers as bs
  | _, _ => 0

/-- eval::compare from hand_eval.cpp: 1 if a wins, -1 if b wins, 0 tie. -/
def compare (a b : HandValue) : Int :=
  if a.type ≠ b.type then (if a.type > b.type then 1 else -1)
  else compareKickers a.kickers b.kickers

end eval

namespace tossem

/- ===== Game state machine (game_state.h / game_state.cpp) ===== -/

/-- Index a two-element aggregate by player number: index 0 gives the first
component, any other index the second (players are always 0 or 1). -/
def pget {α : Type} (x : α × α) (i : Nat) : α :=
  if i = 0 then x.1 else x.2

/-- Write a two-element aggregate at a player index. -/
def pset {α : Type} (x : α × α) (i : Nat) (v : α) : α × α :=
  if i = 0 then (v, x.2) else (x.1, v)

/-- The fixed 3-cell hand array of one player. -/
structure Hand3 where
  c0 : Nat
  c1 : Nat
  c2 : Nat
deriving DecidableEq, Repr

def Hand3.get (h : Hand3) (i : Nat) : Nat :=
  if i = 0 then h.c0 else if i = 1 then h.c1 else h.c2

def Hand3.set (h : Hand3) (i : Nat) (v : Nat) : Hand3 :=
  if i = 0 then { h with c0 := v }
  else if i = 1 then { h with c1 := v }
  else { h with c2 := v }

/-- The first `n` cells of a 3-cell hand, as read by showdown and info_key. -/
def Hand3.toListN (h : Hand3) (n : Nat) : List Nat :=
  [h.c0, h.c1, h.c2].take n

/-- GameState from game_state.h.  The board is embedded as the list of its
first board_size cells and the two history vectors as plain lists (see the
header comment of this file). -/
structure GameState where
  hands : Hand3 × Hand3
  hand_sizes : Nat × Nat
  board : List Nat
  deck : List Nat
  deck_idx : Nat
  street : Nat
  pips : Int × Int
  «stacks» : Int × Int
  current_player : Nat
  history : List (Nat × Nat)
  street_history : List (Nat × Nat)
  bb_discarded : Bool
  sb_discarded : Bool
  is_terminal : Bool
  payoffs : Rat × Rat
deriving DecidableEq

/-- Undo from game_state.h: the scalar snapshot taken by apply_action. -/
structure Undo where
  street : Nat
  current_player : Nat
  pips : Int × Int
  «stacks» : Int × Int
  bb_discarded : Bool
  sb_discarded : Bool
  is_terminal : Bool
  payoffs : Rat × Rat
  history_size : Nat
  street_history_size : Nat
  deck_idx : Nat
  hand_sizes : Nat × Nat
  board_size : Nat
deriving DecidableEq

/-- GameState::reset with the shuffled 52-card deck `full` made explicit:
deal 3 cards to each player, keep the remaining 46 in the deck buffer,
post the blinds. -/
def initialState (full : List Nat) : GameState where
  hands := (⟨full.getD 0 0, full.getD 1 0, full.getD 2 0⟩,
            ⟨full.getD 3 0, full.getD 4 0, full.getD 5 0⟩)
  hand_sizes := (3, 3)
  board := []
  deck := full.drop 6
  deck_idx := 0
  street := STREET_PREFLOP
  pips := (SMALL_BLIND, BIG_BLIND)
  «stacks» := (STARTING_STACK - SMALL_BLIND, STARTING_STACK - BIG_BLIND)
  current_player := 0
  history := []
  street_history := []
  bb_discarded := false
  sb_discarded := false
  is_terminal := false
  payoffs := (0, 0)

/-- GameState::pot. -/
def pot (s : GameState) : Int :=
  (STARTING_STACK - pget s.stacks 0) + (STARTING_STACK - pget s.stacks 1)

/-- GameState::continue_cost. -/
def continue_cost (s : GameState) : Int :=
  pget s.pips (1 - s.current_player) - pget s.pips s.current_player

/-- GameState::effective_stack. -/
def effective_stack (s : GameState) : Int :=
  min (pget s.stacks 0) (pget s.stacks 1)

/-- GameState::is_discard_phase. -/
def is_discard_phase (s : GameState) : Bool :=
  (s.street == STREET_BB_DISCARD && !s.bb_discarded) ||
    (s.street == STREET_SB_DISCARD && !s.sb_discarded)

/-- GameState::legal_actions. -/
def legal_actions (s : GameState) : List Nat :=
  if s.is_terminal then []
  else if is_discard_phase s then [DISCARD0, DISCARD1, DISCARD2]
  else if continue_cost s = 0 then
    [CHECK_CALL] ++
      (if pget s.stacks 0 > 0 ∧ pget s.stacks 1 > 0 then
        [RAISE_SMALL, RAISE_LARGE] else [])
  else
    [FOLD, CHECK_CALL] ++
      (if continue_cost s < pget s.stacks s.current_player ∧
          pget s.stacks (1 - s.current_player) > 0 then
        [RAISE_SMALL, RAISE_LARGE] else [])

/-- GameState::should_advance_street. -/
def should_advance_street (s : GameState) : Bool :=
  if s.street_history.length < 2 then false
  else if pget s.pips 0 = pget s.pips 1 then
    decide ((s.street_history.getLastD (0, 0)).2 = CHECK_CALL)
  else false

/-- The comparison result of the two showdown hands: each player's best
hand over its hole cards plus the full board. -/
def showdown_res (s : GameState) : Int :=
  eval.compare
    (eval.evaluate_best ((pget s.hands 0).toListN (pget s.hand_sizes 0) ++ s.board))
    (eval.evaluate_best ((pget s.hands 1).toListN (pget s.hand_sizes 1) ++ s.board))

/-- GameState::showdown: both players evaluate hole + board, the winner
takes half the pot from the loser (pot()/2.0 each way, exact in float64
and modelled exactly in Rat). -/
def showdown (s : GameState) : GameState :=
  { s with
      is_terminal := true,
      payoffs :=
        if showdown_res s > 0 then ((pot s : Rat) / 2, -((pot s : Rat) / 2))
        else if showdown_res s < 0 then (-((pot s : Rat) / 2), (pot s : Rat) / 2)
        else (0, 0) }

/-- GameState::advance_street: clear pips and per-street history, then move
to the next street, dealing cards as required; settle the showdown after the
river. -/
def advance_street (s : GameState) : GameState :=
  if s.street = STREET_PREFLOP then
    { s with
        pips := ((0 : Int), (0 : Int)),
        street_history := [],
        board := s.board ++ [s.deck.getD s.deck_idx 0, s.deck.getD (s.deck_idx + 1) 0],
        deck_idx := s.deck_idx + 2,
        street := STREET_FLOP,
        current_player := 1 }
  else if s.street = STREET_FLOP then
    { s with
        pips := ((0 : Int), (0 : Int)),
        street_history := [],
        street := STREET_BB_DISCARD,
        current_player := 1 }
  else if s.street = STREET_TURN then
    { s with
        pips := ((0 : Int), (0 : Int)),
        street_history := [],
        board := s.board ++ [s.deck.getD s.deck_idx 0],
        deck_idx := s.deck_idx + 1,
        street := STREET_RIVER,
        current_player := 1 }
  else if s.street = STREET_RIVER then
    showdown { s with pips := ((0 : Int), (0 : Int)), street_history := [] }
  else
    { s with pips := ((0 : Int), (0 : Int)), street_history := [] }

/-- GameState::apply_discard: swap the discarded card with the last hand
card, shrink the hand, expose the card on the board; after the SB discard
immediately deal the turn and open turn betting. -/
def apply_discard (s : GameState) (discard_idx : Nat) : GameState :=
  if s.street = STREET_BB_DISCARD then
    { s with
        hands := pset s.hands 1
          ((pget s.hands 1).set discard_idx
            ((pget s.hands 1).get (pget s.hand_sizes 1 - 1))),
        hand_sizes := pset s.hand_sizes 1 (pget s.hand_sizes 1 - 1),
        board := s.board ++ [(pget s.hands 1).get discard_idx],
        bb_discarded := true,
        street := STREET_SB_DISCARD,
        current_player := 0 }
  else
    { s with
        hands := pset s.hands 0
          ((pget s.hands 0).set discard_idx
            ((pget s.hands 0).get (pget s.hand_sizes 0 - 1))),
        hand_sizes := pset s.hand_sizes 0 (pget s.hand_sizes 0 - 1),
        board := s.board ++ [(pget s.hands 0).get discard_idx, s.deck.getD s.deck_idx 0],
        deck_idx := s.deck_idx + 1,
        sb_discarded := true,
        street := STREET_TURN,
        current_player := 1,
        pips := ((0 : Int), (0 : Int)),
        street_history := [] }

/-- The snapshot apply_action records into its Undo out-parameter. -/
def mkUndo (s : GameState) : Undo where
  street := s.street
  current_player := s.current_player
  pips := s.pips
  «stacks» := s.stacks
  bb_discarded := s.bb_discarded
  sb_discarded := s.sb_discarded
  is_terminal := s.is_terminal
  payoffs := s.payoffs
  history_size := s.history.length
  street_history_size := s.street_history.length
  deck_idx := s.deck_idx
  hand_sizes := s.hand_sizes
  board_size := s.board.length

/-- The FOLD branch of apply_action: terminal, the opponent of the folder is
credited STARTING_STACK - stacks[winner] (the winner's own contribution). -/
def foldState (s : GameState) : GameState :=
  let winner := 1 - s.current_player
  let delta := STARTING_STACK - pget s.stacks winner
  { s with
      is_terminal := true,
      payoffs := pset (pset s.payoffs winner (delta : Rat)) (1 - winner) (-(delta : Rat)) }

/-- The chips actually paid by a call: min(continue_cost, stack). -/
def call_amount (s : GameState) : Int :=
  min (continue_cost s) (pget s.stacks s.current_player)

/-- The CHECK_CALL branch of apply_action: pay min(continue_cost, stack)
when facing a bet. -/
def callChips (s : GameState) : GameState :=
  if continue_cost s > 0 then
    { s with
        pips := pset s.pips s.current_player
          (pget s.pips s.current_player + call_amount s),
        «stacks» := pset s.stacks s.current_player
          (pget s.stacks s.current_player - call_amount s) }
  else s

/-- The raw raise target of the raise branch:
`static_cast<int>(pot * 0.55)` for RAISE_SMALL — embedded as
`Int.tdiv (11 * pot) 20` (see the header comment: for every reachable pot
this is exactly the truncated double product) — and pot for RAISE_LARGE. -/
def raise_target (a : Nat) (s : GameState) : Int :=
  if a = RAISE_SMALL then Int.tdiv (11 * pot s) 20 else pot s

/-- The raise amount after the minimum-raise floor and the stack cap. -/
def raise_amount (a : Nat) (s : GameState) : Int :=
  min (max (continue_cost s + max (continue_cost s) BIG_BLIND) (raise_target a s))
    (pget s.stacks s.current_player)

/-- The total chips the raiser moves: continue_cost + raise amount, capped
by the stack. -/
def raise_total_contrib (a : Nat) (s : GameState) : Int :=
  min (continue_cost s + raise_amount a s) (pget s.stacks s.current_player)

/-- The RAISE_SMALL / RAISE_LARGE branch of apply_action. -/
def raiseChips (a : Nat) (s : GameState) : GameState :=
  { s with
      pips := pset s.pips s.current_player
        (pget s.pips s.current_player + raise_total_contrib a s),
      «stacks» := pset s.stacks s.current_player
        (pget s.stacks s.current_player - raise_total_contrib a s) }

/-- Append the acted (player, action) pair to both history vectors. -/
def appendHist (a : Nat) (s : GameState) : GameState :=
  { s with
      history := s.history ++ [(s.current_player, a)],
      street_history := s.street_history ++ [(s.current_player, a)] }

/-- The tail of apply_action shared by CHECK_CALL, the raises and unknown
betting actions: append to both histories, then advance the street or pass
the turn. -/
def postBet (a : Nat) (s : GameState) : GameState :=
  if should_advance_street (appendHist a s) then advance_street (appendHist a s)
  else { appendHist a s with current_player := 1 - s.current_player }

/-- The state produced by apply_action (before pairing with the Undo). -/
def apply_next (a : Nat) (s : GameState) : GameState :=
  if s.is_terminal then s
  else if is_discard_phase s then apply_discard s (a - 4)
  else if a = FOLD then foldState s
  else if a = CHECK_CALL then postBet a (callChips s)
  else if a = RAISE_SMALL ∨ a = RAISE_LARGE then postBet a (raiseChips a s)
  else postBet a s

/-- GameState::apply_action: snapshot the Undo from the pre-state, then
dispatch on terminal / discard phase / betting action. -/
def apply_action (a : Nat) (s : GameState) : GameState × Undo :=
  (apply_next a s, mkUndo s)

/-- GameState::undo_action: restore every scalar, truncate the append-only
vectors to their recorded sizes.  The hand card cells are NOT restored
(the C++ Undo stores only hand_sizes). -/
def undo_action (s : GameState) (u : Undo) : GameState :=
  { s with
      street := u.street,
      current_player := u.current_player,
      pips := u.pips,
      «stacks» := u.stacks,
      bb_discarded := u.bb_discarded,
      sb_discarded := u.sb_discarded,
      is_terminal := u.is_terminal,
      payoffs := u.payoffs,
      history := s.history.take u.history_size,
      street_history := s.street_history.take u.street_history_size,
      deck_idx := u.deck_idx,
      hand_sizes := u.hand_sizes,
      board := s.board.take u.board_size }

/-- Play a sequence of actions, discarding the undo records. -/
def playActions (s : GameState) (as : List Nat) : GameState :=
  as.foldl (fun t a => (apply_action a t).1) s

/-- The identity permutation deal produced by make_full_deck before
shuffling: card i at position i. -/
def fullDeck : List Nat := List.range 52

/-- Reachable states: a fresh deal of any permutation of the 52-card deck,
followed by any sequence of legal actions. -/
inductive Reachable : GameState → Prop
  | init (full : List Nat) (h : full.Perm fullDeck) : Reachable (initialState full)
  | step {s : GameState} {a : Nat} (hs : Reachable s) (ha : a ∈ legal_actions s) :
      Reachable (apply_action a s).1

end tossem

namespace tossem_abs

/- ===== Information-set abstraction (abstraction.h / abstraction.cpp) ===== -/

/-- InfoKey from abstraction.h.  All integral fields are embedded as Nat
(their C++ types are narrow unsigned integers and every value the code
produces fits).  `stack_bucket` is the field compute_info_key leaves at its
zero initialization. -/
structure InfoKey where
  player : Nat
  street : Nat
  hole_bucket : Nat
  board_bucket : Nat
  pot_bucket : Nat
  stack_bucket : Nat
  hist_bucket : Nat
  bb_discarded : Nat
  sb_discarded : Nat
  legal_mask : Nat
deriving DecidableEq, Repr

/-- get_hole_bucket_2card from abstraction.cpp: 13 pair buckets, then the
triangular (high, low) index offset by 13, plus 78 for suited. -/
def get_hole_bucket_2card (c1 c2 : Nat) : Nat :=
  let r0 := tossem.rank c1
  let r1 := tossem.rank c2
  let hi := max r0 r1
  let lo := min r0 r1
  let suited := tossem.suit c1 = tossem.suit c2
  if hi = lo then hi
  else
    let base := 13 + (hi * (hi - 1)) / 2 + lo
    if suited then base + 78 else base

/-- The straight-potential count of the 3-card hole bucketer: number of
adjacent gaps ≤ 2 in the descending unique rank list. -/
def spCount3 : List Nat → Nat
  | a :: b :: t => (if a - b ≤ 2 then 1 else 0) + spCount3 (b :: t)
  | _ => 0

/-- get_hole_bucket from abstraction.cpp: 2-card hands use the 169-bucket
map; 3-card hands use a heuristic strength score divided into 40 bins. -/
def get_hole_bucket (hole : List Nat) : Nat :=
  if hole.length = 2 then
    get_hole_bucket_2card (hole.getD 0 0) (hole.getD 1 0)
  else
    let cs := [hole.getD 0 0, hole.getD 1 0, hole.getD 2 0]
    let ranks := eval.sortDesc (cs.map tossem.rank)
    let a := ranks.getD 0 0
    let b := ranks.getD 1 0
    let c := ranks.getD 2 0
    let trips := a = b ∧ b = c
    let pair := a = b ∨ b = c ∨ a = c
    let scnt := fun (x : Nat) => (cs.map tossem.suit).count x
    let flush_count := max (max (scnt 0) (scnt 1)) (max (scnt 2) (scnt 3))
    let uniq := eval.dedupAdj ranks
    let straight_potential := if uniq.length ≥ 2 then spCount3 uniq else 0
    let strength : Int :=
      (a : Int) * 2 + (b : Int) + (c : Int) +
        (if trips then 30 else if pair then 15 else 0) +
        ((flush_count : Int) - 1) * 8 + (straight_potential : Int) * 5
    let bucket0 := Int.tdiv strength 6
    let bucket1 := if bucket0 < 0 then 0 else bucket0
    let bucket2 := if bucket1 > 39 then 39 else bucket1
    bucket2.toNat

/-- get_board_bucket from abstraction.cpp: four coarse features combined
into at most 25 buckets. -/
def get_board_bucket (board : List Nat) : Nat :=
  if board = [] then 0
  else
    let ranks := board.map tossem.rank
    let suits := board.map tossem.suit
    let max_rank_count := (List.range 13).foldl (fun m r => max m (ranks.count r)) 0
    let max_suit_count := (List.range 4).foldl (fun m x => max m (suits.count x)) 0
    let uniq := eval.dedupAdj (List.insertionSort (fun x y => x ≤ y) ranks)
    let n := uniq.length
    let straight_potential :=
      (List.range n).foldl (fun acc i =>
        (List.range n).foldl (fun acc2 j =>
          if i < j ∧ uniq.getD j 0 - uniq.getD i 0 ≤ 4 then max acc2 (j - i + 1)
          else acc2) acc) 0
    let high_card := ranks.foldl max 0
    let paired := if max_rank_count ≥ 2 then 1 else 0
    let flush_draw := min 2 (max_suit_count - 1)
    let straight_draw := min 2 (straight_potential - 2)
    let high := if high_card ≥ 10 then 1 else 0
    let bucket := paired * 12 + flush_draw * 4 + straight_draw * 2 + high
    if bucket > 24 then 24 else bucket

/-- get_pot_bucket from abstraction.cpp. -/
def get_pot_bucket (pot : Int) : Nat :=
  if pot ≤ 4 then 0
  else if pot ≤ 10 then 1
  else if pot ≤ 25 then 2
  else if pot ≤ 60 then 3
  else if pot ≤ 140 then 4
  else 5

/-- get_history_bucket from abstraction.cpp: six bins by raise counts. -/
def get_history_bucket (hist : List (Nat × Nat)) : Nat :=
  if hist = [] then 0
  else
    let raises := (hist.filter (fun pa => pa.2 == tossem.RAISE_SMALL ||
      pa.2 == tossem.RAISE_LARGE)).length
    let large_raises := (hist.filter (fun pa => pa.2 == tossem.RAISE_LARGE)).length
    if raises = 0 then 1
    else if raises = 1 ∧ large_raises = 0 then 2
    else if raises = 1 ∧ large_raises = 1 then 3
    else if raises = 2 then 4
    else 5

/-- compute_info_key from abstraction.cpp.  The eff_stack argument is
accepted and discarded (`(void)eff_stack`); InfoKey{} zero-initializes
stack_bucket and no assignment follows, so the field stays 0.  The legal
mask is truncated to 7 bits. -/
def compute_info_key (player : Nat) (street : Nat) (hole_cards : List Nat)
    (board_cards : List Nat) (pot : Int) (eff_stack : Int)
    (betting_history : List (Nat × Nat)) (bb_discarded : Bool)
    (sb_discarded : Bool) (legal_action_mask : Nat) : InfoKey where
  player := player
  street := street
  hole_bucket := get_hole_bucket hole_cards
  board_bucket := get_board_bucket board_cards
  pot_bucket := get_pot_bucket pot
  stack_bucket := 0
  hist_bucket := get_history_bucket betting_history
  bb_discarded := if bb_discarded then 1 else 0
  sb_discarded := if sb_discarded then 1 else 0
  legal_mask := legal_action_mask % 128

end tossem_abs

namespace tossem

/-- GameState::info_key from game_state.cpp: gather hole and board cards,
build the 7-bit legal-action mask, call compute_info_key. -/
def info_key (s : GameState) (player : Nat) (legal_actions_vec : List Nat) :
    tossem_abs.InfoKey :=
  let hole := (pget s.hands player).toListN (pget s.hand_sizes player)
  let la_mask := legal_actions_vec.foldl
    (fun m a => if a < NUM_DISTINCT_ACTIONS then m ||| (1 <<< a) else m) 0
  tossem_abs.compute_info_key player s.street hole s.board (pot s)
    (effective_stack s) s.history s.bb_discarded s.sb_discarded la_mask

/- ===== Definitions used by the verification ===== -/

/-- Sum of the two payoffs (the zero-sum quantity). -/
def paySum (s : GameState) : Rat :=
  pget s.payoffs 0 + pget s.payoffs 1

/-- Chip-accounting invariant maintained by every reachable state:
non-negative pips and stacks, equal total contribution plus remaining stack
across the two players, a valid current player, the current player never
ahead of the opponent at a non-terminal node, and equal pips during the
discard phase. -/
def Inv (s : GameState) : Prop :=
  0 ≤ pget s.stacks 0 ∧ 0 ≤ pget s.stacks 1 ∧
  0 ≤ pget s.pips 0 ∧ 0 ≤ pget s.pips 1 ∧
  pget s.stacks 0 + pget s.pips 0 = pget s.stacks 1 + pget s.pips 1 ∧
  s.current_player ≤ 1 ∧
  (s.is_terminal = false →
    pget s.pips s.current_player ≤ pget s.pips (1 - s.current_player)) ∧
  (is_discard_phase s = true → pget s.pips 0 = pget s.pips 1)

/-- The raise pipeline in the spec's words, with the amended truncated
target: target = trunc(pot·m), raised to the minimum
continue_cost + max(continue_cost, BIG_BLIND), capped at the stack; the
chips actually paid are continue_cost + raise_amount capped by the stack. -/
def spec_raise_contrib_trunc (pot_sz cost stack : Int) (small : Bool) : Int :=
  let target : Int := if small then Int.tdiv (11 * pot_sz) 20 else pot_sz
  let raise_amt := min (max (cost + max cost BIG_BLIND) target) stack
  min (cost + raise_amt) stack

/-- The raise pipeline exactly as the claim states it: target =
round(pot·m) rounded to nearest (m = 0.55 for RAISE_SMALL, 1.0 for
RAISE_LARGE), then the same minimum and caps. -/
def spec_raise_contrib_round (pot_sz cost stack : Int) (small : Bool) : Int :=
  let target : Int := if small then round ((11 * pot_sz : Rat) / 20) else pot_sz
  let raise_amt := min (max (cost + max cost BIG_BLIND) target) stack
  min (cost + raise_amt) stack

/-- Initial state dealt from the identity permutation of the deck. -/
def s0 : GameState := initialState fullDeck

/-- SB calls, BB checks (flop dealt), BB checks, SB checks: the state at the
start of the big blind's discard phase. -/
def sBBDiscard : GameState := playActions s0 [1, 1, 1, 1]

/-- SB opens RAISE_SMALL, BB calls: the state at the start of flop betting
with pot 10 and continue_cost 0. -/
def sFlop10 : GameState := playActions s0 [2, 1]

/-- SB opens RAISE_SMALL, BB folds: a terminal fold state. -/
def sFoldEnd : GameState := playActions s0 [2, 0]

end tossem

namespace tossem_abs

/-- The equivalence class of an unordered 2-card combination for the
169-bucket map: (high rank, low rank, suited). -/
def holeClass (c1 c2 : Nat) : Nat × Nat × Bool :=
  (max (tossem.rank c1) (tossem.rank c2),
   min (tossem.rank c1) (tossem.rank c2),
   decide (tossem.suit c1 = tossem.suit c2))

/-- get_hole_bucket_2card as a function of (high rank, low rank, suited). -/
def bucket2 (hi lo : Nat) (st : Bool) : Nat :=
  if hi = lo then hi
  else
    let base := 13 + (hi * (hi - 1)) / 2 + lo
    if st then base + 78 else base

end tossem_abs

/- ===== Theorems ===== -/

namespace tossem

/-- C1 (code bug witness): at the reachable big-blind discard state reached
by check/call play from the identity deal, applying the legal discard
action 4 (discard hole index 0) and then undoing does NOT restore the
state: the big blind's hand cells are left as (c2, c1, c2) because the
Undo record stores only hand sizes, not the swapped-out card. -/
theorem undo_after_discard_differs :
    4 ∈ legal_actions sBBDiscard ∧
    undo_action (apply_action 4 sBBDiscard).1 (apply_action 4 sBBDiscard).2 ≠
      sBBDiscard ∧
    (undo_action (apply_action 4 sBBDiscard).1 (apply_action 4 sBBDiscard).2).hands ≠
      sBBDiscard.hands := by
  decide

/-- C2 (code bug witness): from the initial preflop state, SB RAISE_SMALL
followed by BB FOLD is terminal, but the payoffs are {+5, −5} — the winner
is credited its own contribution STARTING_STACK − stacks[winner] = 5 — and
not the {+2, −2} the claim states. -/
theorem fold_payoffs_are_winner_contribution :
    sFoldEnd.is_terminal = true ∧
    pget sFoldEnd.payoffs 0 = 5 ∧ pget sFoldEnd.payoffs 1 = -5 ∧
    ¬(pget sFoldEnd.payoffs 0 = 2 ∧ pget sFoldEnd.payoffs 1 = -2) := by
  decide

/-- C3 (code bug witness): with the street constants of abstraction.h the
state machine stores street = 1 (STREET_FLOP) at the betting round right
after the flop deal, 4 (STREET_TURN) at turn betting and 5 (STREET_RIVER)
at river betting — not 4 / 5 / 6 as the 7-value enumeration of the claim
says.  Each listed state is a live betting decision state (non-terminal,
not a discard phase, CHECK_CALL legal), and the InfoKey built at the flop
betting state carries the same street value 1. -/
theorem street_values_follow_sixvalue_enum :
    (playActions s0 [1, 1]).street = 1 ∧
    (playActions s0 [1, 1]).is_terminal = false ∧
    is_discard_phase (playActions s0 [1, 1]) = false ∧
    1 ∈ legal_actions (playActions s0 [1, 1]) ∧
    (info_key (playActions s0 [1, 1]) 1
      (legal_actions (playActions s0 [1, 1]))).street = 1 ∧
    (playActions s0 [1, 1, 1, 1, 4, 4]).street = 4 ∧
    (playActions s0 [1, 1, 1, 1, 4, 4]).is_terminal = false ∧
    is_discard_phase (playActions s0 [1, 1, 1, 1, 4, 4]) = false ∧
    1 ∈ legal_actions (playActions s0 [1, 1, 1, 1, 4, 4]) ∧
    (playActions s0 [1, 1, 1, 1, 4, 4, 1, 1]).street = 5 ∧
    (playActions s0 [1, 1, 1, 1, 4, 4, 1, 1]).is_terminal = false ∧
    is_discard_phase (playActions s0 [1, 1, 1, 1, 4, 4, 1, 1]) = false ∧
    1 ∈ legal_actions (playActions s0 [1, 1, 1, 1, 4, 4, 1, 1]) := by
  decide

end tossem

namespace eval

/-- C8: the evaluator treats the ace as both straight ends.  With suits
encoded ♠=0, ♣=1, ♦=2, ♥=3: the wheel {A♠ 2♣ 3♦ 4♥ 5♠} is a type-4
straight with high kicker 3; the seven cards {T♠ J♠ Q♠ K♠ A♠ 2♣ 3♦}
evaluate to a type-8 straight flush with high kicker 12; and the one-suited
wheel {A♠ 2♠ 3♠ 4♠ 5♠} is a type-8 hand. -/
theorem ace_works_both_ways :
    (evaluate_best [48, 1, 6, 11, 12]).type = 4 ∧
    (evaluate_best [48, 1, 6, 11, 12]).kickers.getD 0 0 = 3 ∧
    (evaluate_best [32, 36, 40, 44, 48, 1, 6]).type = 8 ∧
    (evaluate_best [32, 36, 40, 44, 48, 1, 6]).kickers.getD 0 0 = 12 ∧
    (evaluate_best [48, 0, 4, 8, 12]).type = 8 ∧
    (evaluate_best [48, 0, 4, 8, 12]).kickers.getD 0 0 = 3 := by
  decide

end eval

namespace tossem_abs

/-- C10: compute_info_key ignores its effective-stack argument — two calls
differing only in eff_stack return equal keys — and the stack_bucket field
of every key it returns is 0. -/
theorem info_key_ignores_eff_stack (player street : Nat)
    (hole board : List Nat) (pot : Int) (es1 es2 : Int)
    (hist : List (Nat × Nat)) (bb sb : Bool) (mask : Nat) :
    compute_info_key player street hole board pot es1 hist bb sb mask =
      compute_info_key player street hole board pot es2 hist bb sb mask ∧
    (compute_info_key player street hole board pot es1 hist bb sb mask).stack_bucket
      = 0 := ⟨rfl, rfl⟩

end tossem_abs

namespace tossem

theorem pget_zero_pair (i : Nat) : pget ((0 : Int), (0 : Int)) i = 0 := by
  unfold pget
  split <;> rfl

theorem pget_pset_same {α : Type} (x : α × α) (i : Nat) (v : α) :
    pget (pset x i v) i = v := by
  unfold pget pset
  split <;> simp

theorem legal_nonterminal {s : GameState} {a : Nat} (ha : a ∈ legal_actions s) :
    s.is_terminal = false := by
  cases ht : s.is_terminal
  · rfl
  · unfold legal_actions at ha
    rw [ht] at ha
    simp at ha

theorem paySum_foldState (s : GameState) : paySum (foldState s) = 0 := by
  unfold paySum foldState pget pset
  by_cases h : s.current_player = 0
  · simp [h]
  · have h1 : 1 - s.current_player = 0 := by omega
    simp [h, h1]

theorem paySum_showdown (s : GameState) : paySum (showdown s) = 0 := by
  unfold paySum showdown
  simp only [pget]
  norm_num
  split
  · ring
  · split
    · ring
    · norm_num

theorem paySum_advance (s : GameState) (h : paySum s = 0) :
    paySum (advance_street s) = 0 := by
  unfold advance_street
  split
  · simpa [paySum, pget] using h
  · split
    · simpa [paySum, pget] using h
    · split
      · simpa [paySum, pget] using h
      · split
        · exact paySum_showdown _
        · simpa [paySum, pget] using h

theorem paySum_postBet (a : Nat) (s : GameState) (h : paySum s = 0) :
    paySum (postBet a s) = 0 := by
  unfold postBet
  split
  · exact paySum_advance _ (by simpa [paySum, appendHist, pget] using h)
  · simpa [paySum, appendHist, pget] using h

theorem paySum_apply (a : Nat) (s : GameState) (h : paySum s = 0) :
    paySum (apply_action a s).1 = 0 := by
  show paySum (apply_next a s) = 0
  unfold apply_next
  split
  · exact h
  · split
    · unfold apply_discard
      split <;> simpa [paySum, pget] using h
    · split
      · exact paySum_foldState s
      · split
        · refine paySum_postBet _ _ ?hc
          unfold callChips
          split <;> simpa [paySum, pget] using h
        · split
          · refine paySum_postBet _ _ ?hr
            simpa [paySum, raiseChips, pget] using h
          · exact paySum_postBet _ _ h

theorem paySum_reachable {s : GameState} (hs : Reachable s) : paySum s = 0 := by
  induction hs with
  | init full h => simp [paySum, initialState, pget]
  | step hs ha ih => exact paySum_apply _ _ ih

/-- C5: for every reachable terminal state the payoffs are zero-sum:
payoffs[0] + payoffs[1] = 0 (the fold branch credits opposite-signed
deltas, and showdown assigns ±pot/2 or 0/0). -/
theorem terminal_payoffs_zero_sum (s : GameState) (hs : Reachable s)
    (hterm : s.is_terminal = true) :
    pget s.payoffs 0 + pget s.payoffs 1 = 0 :=
  paySum_reachable hs

/-- Witness for C5 at the concrete reachable terminal state reached from
the identity deal by SB RAISE_SMALL, BB FOLD. -/
theorem terminal_payoffs_zero_sum_witness :
    pget sFoldEnd.payoffs 0 + pget sFoldEnd.payoffs 1 = 0 :=
  terminal_payoffs_zero_sum sFoldEnd
    (Reachable.step (Reachable.step (Reachable.init fullDeck (List.Perm.refl _))
      (by decide)) (by decide))
    (by decide)

end tossem

namespace tossem

theorem inv_advance (s : GameState)
    (hs0 : 0 ≤ pget s.stacks 0) (hs1 : 0 ≤ pget s.stacks 1)
    (heq : pget s.stacks 0 = pget s.stacks 1)
    (hcp : s.current_player ≤ 1) :
    Inv (advance_street s) := by
  simp only [pget] at hs0 hs1 heq
  norm_num at hs0 hs1 heq
  unfold advance_street
  split
  · refine ⟨?_, ?_, ?_, ?_, ?_, ?_, ?_, ?_⟩ <;>
      simp [pget, is_discard_phase, STREET_FLOP, STREET_BB_DISCARD, STREET_SB_DISCARD] <;>
      omega
  · split
    · refine ⟨?_, ?_, ?_, ?_, ?_, ?_, ?_, ?_⟩ <;>
        simp [pget, is_discard_phase, STREET_BB_DISCARD, STREET_SB_DISCARD] <;>
        omega
    · split
      · refine ⟨?_, ?_, ?_, ?_, ?_, ?_, ?_, ?_⟩ <;>
          simp [pget, is_discard_phase, STREET_RIVER, STREET_BB_DISCARD,
            STREET_SB_DISCARD] <;>
          omega
      · split
        · refine ⟨?_, ?_, ?_, ?_, ?_, ?_, ?_, ?_⟩ <;>
            simp [showdown, pget, is_discard_phase] <;>
            omega
        · refine ⟨?_, ?_, ?_, ?_, ?_, ?_, ?_, ?_⟩ <;>
            simp [pget, is_discard_phase] <;>
            omega

theorem should_advance_pips_eq {s : GameState}
    (h : should_advance_street s = true) : pget s.pips 0 = pget s.pips 1 := by
  unfold should_advance_street at h
  split at h
  · exact absurd h (by simp)
  · split at h
    · assumption
    · exact absurd h (by simp)

theorem inv_postBet (a : Nat) (t : GameState)
    (hs0 : 0 ≤ pget t.stacks 0) (hs1 : 0 ≤ pget t.stacks 1)
    (hp0 : 0 ≤ pget t.pips 0) (hp1 : 0 ≤ pget t.pips 1)
    (hsum : pget t.stacks 0 + pget t.pips 0 = pget t.stacks 1 + pget t.pips 1)
    (hcp : t.current_player ≤ 1)
    (hterm : t.is_terminal = false)
    (hdp : is_discard_phase t = false)
    (hact : pget t.pips (1 - t.current_player) ≤ pget t.pips t.current_player) :
    Inv (postBet a t) := by
  unfold postBet
  split
  case isTrue h =>
    have hpeq : pget (appendHist a t).pips 0 = pget (appendHist a t).pips 1 :=
      should_advance_pips_eq h
    refine inv_advance _ ?_ ?_ ?_ ?_ <;>
      simp [appendHist, pget] at hpeq ⊢ <;>
      simp [pget] at hs0 hs1 hsum hcp ⊢ <;> omega
  case isFalse h =>
    have hcp2 : t.current_player = 0 ∨ t.current_player = 1 := by omega
    simp [is_discard_phase] at hdp
    refine ⟨?_, ?_, ?_, ?_, ?_, ?_, ?_, ?_⟩ <;>
      simp [appendHist, pget, is_discard_phase] <;>
      rcases hcp2 with hc | hc <;>
      simp [hc, pget] at hact hs0 hs1 hp0 hp1 hsum ⊢ <;>
      try omega
    all_goals
      intro hx
      rcases hx with ⟨hx1, hx2⟩ | ⟨hx1, hx2⟩ <;> simp [hx1, hx2] at hdp

end tossem

namespace tossem

theorem inv_discard (s : GameState) (i : Nat) (h : Inv s)
    (hdp : is_discard_phase s = true) : Inv (apply_discard s i) := by
  obtain ⟨h1, h2, h3, h4, h5, h6, h7, h8⟩ := h
  have hpips := h8 hdp
  simp [pget] at h1 h2 h3 h4 h5 hpips
  unfold apply_discard
  split
  · refine ⟨?_, ?_, ?_, ?_, ?_, ?_, ?_, ?_⟩ <;>
      simp [pget, pset, is_discard_phase, STREET_SB_DISCARD] <;>
      omega
  · refine ⟨?_, ?_, ?_, ?_, ?_, ?_, ?_, ?_⟩ <;>
      simp [pget, pset, is_discard_phase, STREET_TURN] <;>
      omega

theorem inv_fold (s : GameState) (h : Inv s) (hdp : is_discard_phase s = false) :
    Inv (foldState s) := by
  obtain ⟨h1, h2, h3, h4, h5, h6, h7, h8⟩ := h
  simp [is_discard_phase] at hdp
  refine ⟨h1, h2, h3, h4, h5, h6, ?_, ?_⟩ <;>
    simp [foldState, pget, pset, is_discard_phase]
  intro hx
  rcases hx with ⟨hx1, hx2⟩ | ⟨hx1, hx2⟩ <;> simp [hx1, hx2] at hdp

theorem legal_betting_mem {s : GameState} {a : Nat}
    (hterm : s.is_terminal = false) (hdp : is_discard_phase s = false)
    (ha : a ∈ legal_actions s) : a = 0 ∨ a = 1 ∨ a = 2 ∨ a = 3 := by
  unfold legal_actions at ha
  rw [hterm, hdp] at ha
  simp only [Bool.false_eq_true, if_false] at ha
  split at ha <;> split at ha <;>
    simp [FOLD, CHECK_CALL, RAISE_SMALL, RAISE_LARGE] at ha <;> omega

theorem raise_total_facts (a : Nat) (s : GameState)
    (hcost : 0 ≤ continue_cost s)
    (hstk : continue_cost s ≤ pget s.stacks s.current_player) :
    continue_cost s ≤ raise_total_contrib a s ∧
    raise_total_contrib a s ≤ pget s.stacks s.current_player := by
  unfold raise_total_contrib raise_amount
  generalize raise_target a s = T
  unfold BIG_BLIND
  omega

theorem call_amount_facts (s : GameState)
    (hcost : 0 ≤ continue_cost s)
    (hstk : continue_cost s ≤ pget s.stacks s.current_player) :
    continue_cost s ≤ call_amount s ∧
    call_amount s ≤ pget s.stacks s.current_player := by
  unfold call_amount
  omega

theorem inv_postBet_chipmove (a : Nat) (s : GameState) (D : Int) (h : Inv s)
    (hterm : s.is_terminal = false) (hdp : is_discard_phase s = false)
    (hd1 : continue_cost s ≤ D)
    (hd2 : D ≤ pget s.stacks s.current_player) :
    Inv (postBet a
      { s with
          pips := pset s.pips s.current_player (pget s.pips s.current_player + D),
          «stacks» := pset s.stacks s.current_player
            (pget s.stacks s.current_player - D) }) := by
  obtain ⟨h1, h2, h3, h4, h5, h6, h7, h8⟩ := h
  have h7' := h7 hterm
  have hcp2 : s.current_player = 0 ∨ s.current_player = 1 := by omega
  unfold continue_cost at hd1
  refine inv_postBet _ _ ?_ ?_ ?_ ?_ ?_ ?_ ?_ ?_ ?_
  · rcases hcp2 with hc | hc <;> simp [hc, pget, pset] at * <;> omega
  · rcases hcp2 with hc | hc <;> simp [hc, pget, pset] at * <;> omega
  · rcases hcp2 with hc | hc <;> simp [hc, pget, pset] at * <;> omega
  · rcases hcp2 with hc | hc <;> simp [hc, pget, pset] at * <;> omega
  · rcases hcp2 with hc | hc <;> simp [hc, pget, pset] at * <;> omega
  · exact h6
  · exact hterm
  · simpa [is_discard_phase] using hdp
  · rcases hcp2 with hc | hc <;> simp [hc, pget, pset] at * <;> omega

theorem inv_apply {s : GameState} {a : Nat} (h : Inv s)
    (ha : a ∈ legal_actions s) : Inv (apply_action a s).1 := by
  have hterm : s.is_terminal = false := legal_nonterminal ha
  show Inv (apply_next a s)
  unfold apply_next
  rw [hterm]
  simp only [Bool.false_eq_true, if_false]
  by_cases hdp : is_discard_phase s
  · rw [if_pos hdp]
    exact inv_discard s _ h hdp
  · rw [if_neg hdp]
    have hdp' : is_discard_phase s = false := by
      revert hdp
      cases is_discard_phase s <;> simp
    have hcost : 0 ≤ continue_cost s := by
      obtain ⟨h1, h2, h3, h4, h5, h6, h7, h8⟩ := h
      have := h7 hterm
      unfold continue_cost
      omega
    have hstk : continue_cost s ≤ pget s.stacks s.current_player := by
      obtain ⟨h1, h2, h3, h4, h5, h6, h7, h8⟩ := h
      have h7' := h7 hterm
      have hcp2 : s.current_player = 0 ∨ s.current_player = 1 := by omega
      unfold continue_cost
      rcases hcp2 with hc | hc <;> simp [hc, pget] at * <;> omega
    rcases legal_betting_mem hterm hdp' ha with h0 | h1a | h2a | h3a
    · subst h0
      show Inv (foldState s)
      exact inv_fold s h hdp'
    · subst h1a
      show Inv (postBet 1 (callChips s))
      unfold callChips
      split
      · exact inv_postBet_chipmove 1 s (call_amount s) h hterm hdp'
          (call_amount_facts s hcost hstk).1 (call_amount_facts s hcost hstk).2
      · rename_i hc
        obtain ⟨h1, h2, h3, h4, h5, h6, h7, h8⟩ := h
        refine inv_postBet _ _ h1 h2 h3 h4 h5 h6 hterm hdp' ?_
        have h7' := h7 hterm
        have hcp2 : s.current_player = 0 ∨ s.current_player = 1 := by omega
        unfold continue_cost at hc hcost
        rcases hcp2 with hc0 | hc0 <;> simp [hc0, pget] at * <;> omega
    · subst h2a
      show Inv (postBet 2 (raiseChips 2 s))
      unfold raiseChips
      exact inv_postBet_chipmove 2 s (raise_total_contrib 2 s) h hterm hdp'
        (raise_total_facts 2 s hcost hstk).1 (raise_total_facts 2 s hcost hstk).2
    · subst h3a
      show Inv (postBet 3 (raiseChips 3 s))
      unfold raiseChips
      exact inv_postBet_chipmove 3 s (raise_total_contrib 3 s) h hterm hdp'
        (raise_total_facts 3 s hcost hstk).1 (raise_total_facts 3 s hcost hstk).2

end tossem

namespace tossem

theorem inv_initial (full : List Nat) : Inv (initialState full) := by
  refine ⟨?_, ?_, ?_, ?_, ?_, ?_, ?_, ?_⟩ <;>
    simp [initialState, pget, is_discard_phase, STARTING_STACK, SMALL_BLIND,
      BIG_BLIND, STREET_PREFLOP, STREET_BB_DISCARD, STREET_SB_DISCARD] <;>
    norm_num

theorem inv_reachable {s : GameState} (hs : Reachable s) : Inv s := by
  induction hs with
  | init full h => exact inv_initial full
  | step hs ha ih => exact inv_apply ih ha

/-- C6: in every reachable non-terminal betting (non-discard) state,
continue_cost = pips[opponent] − pips[current_player] is non-negative. -/
theorem continue_cost_nonneg (s : GameState) (hs : Reachable s)
    (hterm : s.is_terminal = false) (hdp : is_discard_phase s = false) :
    continue_cost s =
      pget s.pips (1 - s.current_player) - pget s.pips s.current_player ∧
    0 ≤ continue_cost s := by
  obtain ⟨h1, h2, h3, h4, h5, h6, h7, h8⟩ := inv_reachable hs
  have h7' := h7 hterm
  exact ⟨rfl, by unfold continue_cost; omega⟩

/-- Witness for C6 at the initial preflop state of the identity deal, where
continue_cost = 1. -/
theorem continue_cost_nonneg_witness :
    continue_cost s0 =
      pget s0.pips (1 - s0.current_player) - pget s0.pips s0.current_player ∧
    0 ≤ continue_cost s0 :=
  continue_cost_nonneg s0 (Reachable.init fullDeck (List.Perm.refl _))
    (by decide) (by decide)

/-- C7: legal_actions of a reachable state: empty when terminal; exactly
the three discard actions {4,5,6} in the current player's discard phase;
otherwise CHECK_CALL is always present, FOLD is present iff
continue_cost > 0, and the two raises are present iff both players have
chips and, when facing a bet, the current player can afford strictly more
than the call. -/
theorem legal_actions_spec (s : GameState) (hs : Reachable s) :
    (s.is_terminal = true → legal_actions s = []) ∧
    (s.is_terminal = false → is_discard_phase s = true →
      legal_actions s = [DISCARD0, DISCARD1, DISCARD2]) ∧
    (s.is_terminal = false → is_discard_phase s = false →
      (CHECK_CALL ∈ legal_actions s ∧
       (FOLD ∈ legal_actions s ↔ 0 < continue_cost s) ∧
       ((RAISE_SMALL ∈ legal_actions s ∧ RAISE_LARGE ∈ legal_actions s) ↔
         (0 < pget s.stacks 0 ∧ 0 < pget s.stacks 1 ∧
           (0 < continue_cost s →
             continue_cost s < pget s.stacks s.current_player))))) := by
  obtain ⟨h1, h2, h3, h4, h5, h6, h7, h8⟩ := inv_reachable hs
  refine ⟨?_, ?_, ?_⟩
  · intro ht
    unfold legal_actions
    rw [ht]
    simp
  · intro ht hd
    unfold legal_actions
    rw [ht, hd]
    simp
  · intro ht hd
    have h7' := h7 ht
    have hcp2 : s.current_player = 0 ∨ s.current_player = 1 := by omega
    unfold legal_actions
    rw [ht, hd]
    simp only [Bool.false_eq_true, if_false]
    by_cases hc : continue_cost s = 0
    · rw [if_pos hc]
      split_ifs with hr <;>
        rcases hcp2 with hc0 | hc0 <;>
        unfold continue_cost at * <;>
        simp [hc0, pget, FOLD, CHECK_CALL, RAISE_SMALL, RAISE_LARGE] at * <;>
        omega
    · rw [if_neg hc]
      split_ifs with hr <;>
        rcases hcp2 with hc0 | hc0 <;>
        unfold continue_cost at * <;>
        simp [hc0, pget, FOLD, CHECK_CALL, RAISE_SMALL, RAISE_LARGE] at * <;>
        omega

/-- Witness for C7 at the initial preflop state of the identity deal:
FOLD is legal there because continue_cost = 1 > 0. -/
theorem legal_actions_spec_witness :
    FOLD ∈ legal_actions s0 ↔ 0 < continue_cost s0 :=
  ((legal_actions_spec s0 (Reachable.init fullDeck (List.Perm.refl _))).2.2
    (by decide) (by decide)).2.1

end tossem

namespace tossem

theorem should_advance_append_ne (a : Nat) (t : GameState)
    (hne : a ≠ CHECK_CALL) : should_advance_street (appendHist a t) = false := by
  unfold should_advance_street appendHist
  simp only []
  split
  · rfl
  · split
    · simp [hne]
    · rfl

/-- C4 (amended): in every non-terminal betting state, RAISE_SMALL /
RAISE_LARGE moves continue_cost + raise_amount chips (capped by the stack)
from stack to pip, where the raise target is the TRUNCATED pot · m
(m = 0.55 / 1.0), floored at continue_cost + max(continue_cost, BIG_BLIND)
and capped at the stack. -/
theorem raise_follows_trunc_pipeline (s : GameState) (a : Nat)
    (hterm : s.is_terminal = false) (hdp : is_discard_phase s = false)
    (ha : a = RAISE_SMALL ∨ a = RAISE_LARGE) :
    pget ((apply_action a s).1).pips s.current_player =
      pget s.pips s.current_player +
        spec_raise_contrib_trunc (pot s) (continue_cost s)
          (pget s.stacks s.current_player) (a == RAISE_SMALL) ∧
    pget ((apply_action a s).1).stacks s.current_player =
      pget s.stacks s.current_player -
        spec_raise_contrib_trunc (pot s) (continue_cost s)
          (pget s.stacks s.current_player) (a == RAISE_SMALL) := by
  have hdp' : ¬is_discard_phase s = true := by simp [hdp]
  show pget ((apply_next a s)).pips s.current_player = _ ∧
    pget ((apply_next a s)).stacks s.current_player = _
  unfold apply_next
  rw [hterm]
  simp only [Bool.false_eq_true, if_false]
  rw [if_neg hdp']
  rcases ha with h2 | h2 <;> subst h2
  · show pget (postBet 2 (raiseChips 2 s)).pips s.current_player = _ ∧
      pget (postBet 2 (raiseChips 2 s)).stacks s.current_player = _
    unfold postBet
    rw [should_advance_append_ne 2 _ (by decide)]
    simp only [Bool.false_eq_true, if_false]
    constructor <;>
      simp [appendHist, raiseChips, pget_pset_same, spec_raise_contrib_trunc,
        raise_total_contrib, raise_amount, raise_target, RAISE_SMALL, RAISE_LARGE]
  · show pget (postBet 3 (raiseChips 3 s)).pips s.current_player = _ ∧
      pget (postBet 3 (raiseChips 3 s)).stacks s.current_player = _
    unfold postBet
    rw [should_advance_append_ne 3 _ (by decide)]
    simp only [Bool.false_eq_true, if_false]
    constructor <;>
      simp [appendHist, raiseChips, pget_pset_same, spec_raise_contrib_trunc,
        raise_total_contrib, raise_amount, raise_target, RAISE_SMALL, RAISE_LARGE]

/-- Witness for the amended C4 at the reachable flop state sFlop10
(pot = 10, continue_cost = 0), applying RAISE_SMALL. -/
theorem raise_follows_trunc_pipeline_witness :
    pget ((apply_action 2 sFlop10).1).pips sFlop10.current_player =
      pget sFlop10.pips sFlop10.current_player +
        spec_raise_contrib_trunc (pot sFlop10) (continue_cost sFlop10)
          (pget sFlop10.stacks sFlop10.current_player) (2 == RAISE_SMALL) ∧
    pget ((apply_action 2 sFlop10).1).stacks sFlop10.current_player =
      pget sFlop10.stacks sFlop10.current_player -
        spec_raise_contrib_trunc (pot sFlop10) (continue_cost sFlop10)
          (pget sFlop10.stacks sFlop10.current_player) (2 == RAISE_SMALL) :=
  raise_follows_trunc_pipeline sFlop10 2 (by decide) (by decide) (Or.inl rfl)

/-- C4 counterexample: at the reachable betting state sFlop10 the pot is 10
and continue_cost is 0; the code moves 5 chips on RAISE_SMALL (the double
product 10·0.55 = 5.5 is truncated to 5), while the claim's
round-to-nearest pipeline prescribes 6.  The claim's equation is therefore
false at this state. -/
theorem raise_round_counterexample :
    sFlop10.is_terminal = false ∧
    is_discard_phase sFlop10 = false ∧
    pot sFlop10 = 10 ∧
    continue_cost sFlop10 = 0 ∧
    pget ((apply_action RAISE_SMALL sFlop10).1).pips sFlop10.current_player =
      pget sFlop10.pips sFlop10.current_player + 5 ∧
    spec_raise_contrib_round (pot sFlop10) (continue_cost sFlop10)
      (pget sFlop10.stacks sFlop10.current_player) true = 6 ∧
    pget ((apply_action RAISE_SMALL sFlop10).1).pips sFlop10.current_player ≠
      pget sFlop10.pips sFlop10.current_player +
        spec_raise_contrib_round (pot sFlop10) (continue_cost sFlop10)
          (pget sFlop10.stacks sFlop10.current_player) true := by
  have h3 : pot sFlop10 = 10 := by decide
  have h4 : continue_cost sFlop10 = 0 := by decide
  have h5 : pget sFlop10.stacks sFlop10.current_player = 395 := by decide
  have h6 : pget ((apply_action RAISE_SMALL sFlop10).1).pips sFlop10.current_player =
      pget sFlop10.pips sFlop10.current_player + 5 := by decide
  have hpip : pget sFlop10.pips sFlop10.current_player = 0 := by decide
  have h7 : spec_raise_contrib_round 10 0 395 true = 6 := by
    norm_num [spec_raise_contrib_round, round_eq, BIG_BLIND]
  refine ⟨by decide, by decide, h3, h4, h6, ?_, ?_⟩
  · rw [h3, h4, h5]
    exact h7
  · rw [h6, h3, h4, h5, h7, hpip]
    decide

end tossem

namespace tossem_abs

theorem hole2_eq_bucket2 (c1 c2 : Nat) :
    get_hole_bucket_2card c1 c2 =
      bucket2 (max (tossem.rank c1) (tossem.rank c2))
        (min (tossem.rank c1) (tossem.rank c2))
        (decide (tossem.suit c1 = tossem.suit c2)) := by
  unfold get_hole_bucket_2card bucket2
  by_cases h : tossem.suit c1 = tossem.suit c2 <;> simp [h]

set_option synthInstance.maxSize 4000 in
theorem bucket2_props :
    ∀ hi, hi < 13 → ∀ lo, lo < 13 → ∀ st : Bool, lo ≤ hi →
      (hi = lo → st = false) →
      (bucket2 hi lo st ≤ 168 ∧
       (hi ≠ lo ∨ bucket2 hi lo st = hi) ∧
       (hi = lo ∨ (13 ≤ bucket2 hi lo st ∧
         bucket2 hi lo true = bucket2 hi lo false + 78))) := by
  decide

theorem bucket2_pair {hi lo : Nat} (st : Bool) (e : hi = lo) :
    bucket2 hi lo st = hi := by
  unfold bucket2
  rw [if_pos e]

theorem bucket2_nonpair_false {hi lo : Nat} (e : ¬hi = lo) :
    bucket2 hi lo false = 13 + hi * (hi - 1) / 2 + lo := by
  unfold bucket2
  rw [if_neg e]
  simp

theorem bucket2_nonpair_true {hi lo : Nat} (e : ¬hi = lo) :
    bucket2 hi lo true = 13 + hi * (hi - 1) / 2 + lo + 78 := by
  unfold bucket2
  rw [if_neg e]
  simp

theorem tri_bound :
    ∀ hi, hi < 13 → ∀ lo, lo < hi → 13 + hi * (hi - 1) / 2 + lo ≤ 90 := by
  decide

set_option maxHeartbeats 1600000 in
theorem tri_inj :
    ∀ hi, hi < 13 → ∀ lo, lo < hi → ∀ hi', hi' < 13 → ∀ lo', lo' < hi' →
      (hi * (hi - 1) / 2 + lo = hi' * (hi' - 1) / 2 + lo' ↔
        (hi = hi' ∧ lo = lo')) := by
  intro hi hhi lo hlo hi' hhi' lo' hlo'
  interval_cases hi <;> interval_cases hi' <;> omega

theorem bucket2_inj :
    ∀ hi, hi < 13 → ∀ lo, lo < 13 → ∀ hi', hi' < 13 → ∀ lo', lo' < 13 →
      ∀ st st' : Bool, lo ≤ hi → lo' ≤ hi' →
      (hi = lo → st = false) → (hi' = lo' → st' = false) →
      (bucket2 hi lo st = bucket2 hi' lo' st' ↔
        (hi = hi' ∧ lo = lo' ∧ st = st')) := by
  intro hi hhi lo hlo hi' hhi' lo' hlo' st st' hle hle' hps hps'
  by_cases e : hi = lo <;> by_cases e' : hi' = lo'
  · rw [bucket2_pair st e, bucket2_pair st' e']
    constructor
    · intro h
      refine ⟨h, by omega, by rw [hps e, hps' e']⟩
    · intro h
      exact h.1
  · rw [bucket2_pair st e]
    constructor
    · intro h
      exfalso
      cases st' with
      | false =>
        rw [bucket2_nonpair_false e'] at h
        omega
      | true =>
        rw [bucket2_nonpair_true e'] at h
        omega
    · intro h
      exfalso
      obtain ⟨h1, h2, h3⟩ := h
      omega
  · rw [bucket2_pair st' e']
    constructor
    · intro h
      exfalso
      cases st with
      | false =>
        rw [bucket2_nonpair_false e] at h
        omega
      | true =>
        rw [bucket2_nonpair_true e] at h
        omega
    · intro h
      exfalso
      obtain ⟨h1, h2, h3⟩ := h
      omega
  · have key := tri_inj hi hhi lo (by omega) hi' hhi' lo' (by omega)
    have hb : 13 + hi * (hi - 1) / 2 + lo ≤ 90 := tri_bound hi hhi lo (by omega)
    have hb' : 13 + hi' * (hi' - 1) / 2 + lo' ≤ 90 := tri_bound hi' hhi' lo' (by omega)
    cases st <;> cases st'
    · rw [bucket2_nonpair_false e, bucket2_nonpair_false e']
      constructor
      · intro h
        refine ⟨(key.mp (by omega)).1, (key.mp (by omega)).2, rfl⟩
      · intro h
        have := key.mpr ⟨h.1, h.2.1⟩
        omega
    · rw [bucket2_nonpair_false e, bucket2_nonpair_true e']
      constructor
      · intro h
        exfalso
        omega
      · intro h
        exact absurd h.2.2 (by simp)
    · rw [bucket2_nonpair_true e, bucket2_nonpair_false e']
      constructor
      · intro h
        exfalso
        omega
      · intro h
        exact absurd h.2.2 (by simp)
    · rw [bucket2_nonpair_true e, bucket2_nonpair_true e']
      constructor
      · intro h
        refine ⟨(key.mp (by omega)).1, (key.mp (by omega)).2, rfl⟩
      · intro h
        have := key.mpr ⟨h.1, h.2.1⟩
        omega

end tossem_abs

namespace tossem_abs

theorem rank_lt_13 {c : Nat} (h : c < 52) : tossem.rank c < 13 := by
  unfold tossem.rank
  omega

theorem pair_not_suited {c1 c2 : Nat} (h1 : c1 < 52) (h2 : c2 < 52)
    (hne : c1 ≠ c2) (hr : tossem.rank c1 = tossem.rank c2) :
    tossem.suit c1 ≠ tossem.suit c2 := by
  unfold tossem.rank at hr
  unfold tossem.suit
  omega

/-- C9: get_hole_bucket_2card maps every unordered pair of distinct cards
into [0, 168]; pairs of rank r map to bucket r; non-pair classes land in
13..168 with the suited class exactly 78 above the off-suit class of the
same ranks; and the bucket determines the (high rank, low rank, suited)
equivalence class, i.e. the map is injective on classes. -/
theorem hole_bucket_2card_classes (c1 c2 d1 d2 : Nat)
    (hc1 : c1 < 52) (hc2 : c2 < 52) (hne : c1 ≠ c2)
    (hd1 : d1 < 52) (hd2 : d2 < 52) (hne' : d1 ≠ d2) :
    get_hole_bucket_2card c1 c2 ≤ 168 ∧
    (tossem.rank c1 = tossem.rank c2 →
      get_hole_bucket_2card c1 c2 = tossem.rank c1) ∧
    (tossem.rank c1 ≠ tossem.rank c2 → 13 ≤ get_hole_bucket_2card c1 c2) ∧
    (tossem.rank c1 ≠ tossem.rank c2 → tossem.suit c1 = tossem.suit c2 →
      get_hole_bucket_2card c1 c2 =
        get_hole_bucket_2card (4 * tossem.rank c1) (4 * tossem.rank c2 + 1) + 78) ∧
    (get_hole_bucket_2card c1 c2 = get_hole_bucket_2card d1 d2 ↔
      holeClass c1 c2 = holeClass d1 d2) := by
  have hb1 := rank_lt_13 hc1
  have hb2 := rank_lt_13 hc2
  have hb3 := rank_lt_13 hd1
  have hb4 := rank_lt_13 hd2
  have hmaxc : max (tossem.rank c1) (tossem.rank c2) < 13 := by omega
  have hminc : min (tossem.rank c1) (tossem.rank c2) ≤
      max (tossem.rank c1) (tossem.rank c2) := by omega
  have hmaxd : max (tossem.rank d1) (tossem.rank d2) < 13 := by omega
  have hmind : min (tossem.rank d1) (tossem.rank d2) ≤
      max (tossem.rank d1) (tossem.rank d2) := by omega
  have hminc13 : min (tossem.rank c1) (tossem.rank c2) < 13 := by omega
  have hmind13 : min (tossem.rank d1) (tossem.rank d2) < 13 := by omega
  have hstc : max (tossem.rank c1) (tossem.rank c2) =
      min (tossem.rank c1) (tossem.rank c2) →
      decide (tossem.suit c1 = tossem.suit c2) = false := by
    intro h
    have hr : tossem.rank c1 = tossem.rank c2 := by omega
    simp [pair_not_suited hc1 hc2 hne hr]
  have hstd : max (tossem.rank d1) (tossem.rank d2) =
      min (tossem.rank d1) (tossem.rank d2) →
      decide (tossem.suit d1 = tossem.suit d2) = false := by
    intro h
    have hr : tossem.rank d1 = tossem.rank d2 := by omega
    simp [pair_not_suited hd1 hd2 hne' hr]
  obtain ⟨p1, p2, p3⟩ := bucket2_props _ hmaxc _ hminc13 _ hminc hstc
  rw [hole2_eq_bucket2 c1 c2, hole2_eq_bucket2 d1 d2]
  refine ⟨p1, ?_, ?_, ?_, ?_⟩
  · intro hr
    rcases p2 with hp | hp
    · exact absurd (by omega) hp
    · rw [hp]
      omega
  · intro hr
    rcases p3 with hp | hp
    · exact absurd (by omega : tossem.rank c1 = tossem.rank c2) hr
    · exact hp.1
  · intro hr hsu
    rcases p3 with hp | hp
    · exact absurd (by omega : tossem.rank c1 = tossem.rank c2) hr
    · rw [hole2_eq_bucket2]
      have e1 : tossem.rank (4 * tossem.rank c1) = tossem.rank c1 := by
        unfold tossem.rank
        omega
      have e2 : tossem.rank (4 * tossem.rank c2 + 1) = tossem.rank c2 := by
        unfold tossem.rank
        omega
      have e3 : tossem.suit (4 * tossem.rank c1) = 0 := by
        unfold tossem.suit
        omega
      have e4 : tossem.suit (4 * tossem.rank c2 + 1) = 1 := by
        unfold tossem.suit
        omega
      rw [e1, e2, e3, e4]
      have hsu' : decide (tossem.suit c1 = tossem.suit c2) = true := by
        simp [hsu]
      rw [hsu']
      norm_num
      exact hp.2
  · rw [bucket2_inj _ hmaxc _ hminc13 _ hmaxd _ hmind13 _ _ hminc hmind hstc hstd]
    unfold holeClass
    simp [Prod.ext_iff]

end tossem_abs

namespace tossem_abs

/-- Witness for C9 at the concrete distinct cards 0 (deuce, suit 0) and 5
(trey, suit 1), used for both combinations. -/
theorem hole_bucket_2card_classes_witness :
    get_hole_bucket_2card 0 5 ≤ 168 ∧
    (tossem.rank 0 = tossem.rank 5 →
      get_hole_bucket_2card 0 5 = tossem.rank 0) ∧
    (tossem.rank 0 ≠ tossem.rank 5 → 13 ≤ get_hole_bucket_2card 0 5) ∧
    (tossem.rank 0 ≠ tossem.rank 5 → tossem.suit 0 = tossem.suit 5 →
      get_hole_bucket_2card 0 5 =
        get_hole_bucket_2card (4 * tossem.rank 0) (4 * tossem.rank 5 + 1) + 78) ∧
    (get_hole_bucket_2card 0 5 = get_hole_bucket_2card 0 5 ↔
      holeClass 0 5 = holeClass 0 5) :=
  hole_bucket_2card_classes 0 5 0 5 (by decide) (by decide) (by decide)
    (by decide) (by decide) (by decide)

end tossem_abs
